import Mathlib

set_option maxHeartbeats 1000000

/-!
Verification development for the industrial RAG system
(`industrial_rag_system.py`).  The Python source is shallowly embedded:
text is `List Char`, Python slicing/strip/rfind are modelled exactly,
the `chunk_text` while-loop becomes a fuel-indexed loop on an `Int`
cursor (Python integers are unbounded and the cursor may in principle
go negative, so the cursor is an `Int` and slices use Python's
negative-index semantics), the retriever and answer synthesizer become
pure functions parameterised by the external embedding/generation
providers, and the external vector store boundary is modelled from the
specification (the store itself is an external collaborator).
-/

/-- Whitespace characters removed by Python `str.strip()` (ASCII range). -/
def pyIsSpace (c : Char) : Bool :=
  c = ' ' || c = '\t' || c = '\n' || c = '\r' || c = '\x0b' || c = '\x0c'

/-- Python `str.strip()`: drop leading and trailing whitespace. -/
def pyStrip (l : List Char) : List Char :=
  ((l.dropWhile pyIsSpace).reverse.dropWhile pyIsSpace).reverse

/-- Clamp a Python slice bound to an actual index: negative indices count
from the end, and both ends are clamped into `[0, len]`. -/
def pyIdx (len : Nat) (i : Int) : Nat :=
  if i < 0 then (max ((len : Int) + i) 0).toNat else (min i (len : Int)).toNat

/-- Python slice `l[a:b]` with full Python index semantics. -/
def pySlice (l : List Char) (a b : Int) : List Char :=
  (l.take (pyIdx l.length b)).drop (pyIdx l.length a)

/-- Index of the last occurrence of `c` in a list, if any. -/
def lastIdxOf (c : Char) : List Char → Option Nat
  | [] => none
  | x :: xs =>
    match lastIdxOf c xs with
    | some i => some (i + 1)
    | none => if x = c then some 0 else none

/-- Python `str.rfind` for a one-character needle: the highest index at
which the character occurs, or `-1` when it does not occur. -/
def pyRfind (l : List Char) (c : Char) : Int :=
  match lastIdxOf c l with
  | some i => (i : Int)
  | none => -1

/-- The `last_period` computation of `chunk_text` (lines 72-76):
`max(chunk.rfind('.'), chunk.rfind('?'), chunk.rfind('!'))`. -/
def maxTerm (l : List Char) : Int :=
  max (pyRfind l '.') (max (pyRfind l '?') (pyRfind l '!'))

/-- One iteration of the `chunk_text` while-loop body (lines 66-85 of
`industrial_rag_system.py`), before the strip-and-append step: from the
cursor `start` it produces the (possibly sentence-truncated) window and
the next cursor value `end - overlap`.  The guard
`last_period > chunk_size * 0.5` is the exact integer condition
`2 * last_period > chunk_size`. -/
def chunkStep (t : List Char) (S O : Nat) (start : Int) : List Char × Int :=
  if start + (S : Int) < (t.length : Int) then
    if (S : Int) < 2 * maxTerm (pySlice t start (start + (S : Int))) then
      (pySlice (pySlice t start (start + (S : Int))) 0
          (maxTerm (pySlice t start (start + (S : Int))) + 1),
        start + maxTerm (pySlice t start (start + (S : Int))) + 1 - (O : Int))
    else (pySlice t start (start + (S : Int)), start + (S : Int) - (O : Int))
  else (pySlice t start (start + (S : Int)), start + (S : Int) - (O : Int))

/-- The `chunk_text` while-loop (lines 63-87), indexed by fuel: `none`
means the loop did not reach `start ≥ len(text)` within `fuel`
iterations.  Each iteration appends the stripped window when it is
non-empty, exactly as lines 82-83 do. -/
def chunkLoop (t : List Char) (S O : Nat) :
    Nat → Int → List (List Char) → Option (List (List Char))
  | 0, start, acc => if start < (t.length : Int) then none else some acc
  | fuel + 1, start, acc =>
    if start < (t.length : Int) then
      chunkLoop t S O fuel (chunkStep t S O start).2
        (if pyStrip (chunkStep t S O start).1 = [] then acc
         else acc ++ [pyStrip (chunkStep t S O start).1])
    else some acc

/-- `chunk_text(text, chunk_size, overlap)` (lines 61-87).  The cursor
advances by at least one position per iteration whenever the loop makes
progress, so `length + 1` units of fuel are sufficient for every
terminating run; a `none` result means the Python loop runs forever. -/
def chunk_text (t : List Char) (chunk_size overlap : Nat) : Option (List (List Char)) :=
  chunkLoop t chunk_size overlap (t.length + 1) 0 []

/-- Sentence-terminal characters named by the specification. -/
def isTerminal (c : Char) : Bool :=
  c = '.' || c = '?' || c = '!'

/-- Modelled from the spec: the index of "the last sentence-terminal
character (`.`, `?`, `!`)" of a window, found by backward search
(section 4.1 of the specification). -/
def lastTerminalIdx : List Char → Option Nat
  | [] => none
  | x :: xs =>
    match lastTerminalIdx xs with
    | some i => some (i + 1)
    | none => if isTerminal x then some 0 else none

/-- Metadata stored with every chunk by `build_index` (lines 176-182). -/
structure EntryMeta where
  document_id : String
  document_name : String
  document_type : String
  chunk_index : Nat
  source_file : String
deriving DecidableEq

/-- One persisted vector-store entry: identifier, embedding vector,
chunk text and metadata (spec section 3, IndexEntry). -/
structure StoreEntry where
  id : String
  embedding : List ℚ
  document : String
  metadata : EntryMeta
deriving DecidableEq

/-- The `where` equality filter sent to the store (line 292):
`none` is no filter, `some s` keeps entries with `document_name = s`. -/
def matchesWhere (wf : Option String) (m : EntryMeta) : Bool :=
  match wf with
  | none => true
  | some s => m.document_name == s

/-- Insert an entry into a list sorted by the `le` key (ordering by
distance to the query). -/
def insertByLe (le : StoreEntry → StoreEntry → Bool) (e : StoreEntry) :
    List StoreEntry → List StoreEntry
  | [] => [e]
  | x :: xs => if le e x then e :: x :: xs else x :: insertByLe le e xs

/-- Stable insertion sort by the `le` key. -/
def sortByLe (le : StoreEntry → StoreEntry → Bool) : List StoreEntry → List StoreEntry
  | [] => []
  | x :: xs => insertByLe le x (sortByLe le xs)

/-- Modelled from the spec: the external vector store's query operation
(section 6, "query(query-vector, k, optional equality filter on
metadata) → ordered results, each length k or fewer if the filtered set
is smaller").  The store (ChromaDB) is an external collaborator whose
code is not part of this repository; per the spec it returns the `k`
entries matching the optional equality filter that are nearest to the
query, ordered by ascending distance `d`. -/
def collectionQuery (entries : List StoreEntry) (d : StoreEntry → ℚ) (k : Nat)
    (wf : Option String) : List StoreEntry :=
  (sortByLe (fun a b => decide (d a ≤ d b))
    (entries.filter (fun e => matchesWhere wf e.metadata))).take k

/-- The `max_dist` of `search` (line 307):
`max(distances) if distances else 1.0`. -/
def maxDistOf (distances : List ℚ) : ℚ :=
  match distances with
  | [] => 1
  | d :: ds => ds.foldl max d

/-- The similarity normalization of `search` (line 308):
`[1 - (d / max_dist) if max_dist > 0 else 1.0 for d in distances]`. -/
def simScores (distances : List ℚ) : List ℚ :=
  distances.map (fun d => if 0 < maxDistOf distances then 1 - d / maxDistOf distances else 1)

/-- Error outcomes of the query path: the `ValueError("Collection not
loaded")` raised at line 280 versus an error raised by the external
embedding/generation provider client. -/
inductive RagError where
  | notLoaded : RagError
  | provider : String → RagError
deriving DecidableEq

/-- External calls issued by the query path, in order. -/
inductive ExtCall where
  | embed : String → ExtCall
  | storeQuery : Nat → Option String → ExtCall
  | chat : String → String → ExtCall
deriving DecidableEq

/-- The `where_filter` construction of `search` (lines 290-292): a
filter is installed when `document_filter` is truthy (not `None`, not
the empty string) and differs from the sentinel `"All Documents"`. -/
def buildWhereFilter (document_filter : Option String) : Option String :=
  match document_filter with
  | none => none
  | some s => if s ≠ "" ∧ s ≠ "All Documents" then some s else none

/-- `search` (lines 262-310).  The external collaborators are explicit
parameters: `embed` is the embedding provider (which may fail) and
`dist` the store's distance metric between the query embedding and a
stored embedding.  The second component records the external calls
issued, in order.  The result list zips the store's documents with the
normalized similarity scores and metadatas (line 310). -/
def search (collection : Option (List StoreEntry))
    (embed : String → Except String (List ℚ)) (dist : List ℚ → List ℚ → ℚ)
    (query : String) (top_k : Nat) (document_filter : Option String) :
    Except RagError (List (String × ℚ × EntryMeta)) × List ExtCall :=
  match collection with
  | none => (Except.error RagError.notLoaded, [])
  | some entries =>
    match embed query with
    | Except.error m => (Except.error (RagError.provider m), [ExtCall.embed query])
    | Except.ok query_embedding =>
      let where_filter := buildWhereFilter document_filter
      let top := collectionQuery entries (fun e => dist query_embedding e.embedding)
        top_k where_filter
      let chunks := top.map (fun e => e.document)
      let distances := top.map (fun e => dist query_embedding e.embedding)
      let metadatas := top.map (fun e => e.metadata)
      (Except.ok (List.zip chunks (List.zip (simScores distances) metadatas)),
       [ExtCall.embed query, ExtCall.storeQuery top_k where_filter])

/-- The fixed system instruction of `generate_response` (lines 334-347). -/
def system_message : String :=
  "You are an expert assistant for Alberta Energy Regulator (AER) directives and industrial compliance.\n\nYour role:\n- Answer questions based ONLY on the provided AER directive excerpts\n- Provide accurate, compliance-focused information\n- Include specific directive references when relevant\n- If information is not in the context, clearly state this\n- Be professional and precise\n\nGuidelines:\n- Cite specific directives when answering\n- Include relevant section numbers if mentioned in context\n- Keep answers clear and actionable\n- Do not make up requirements not in the context"

/-- Two-decimal rendering of a score, modelling the `f"{score:.2f}"`
format of line 328 (rounding mode differences of binary floats are not
modelled; no claim depends on the rendered digits). -/
def formatScore (q : ℚ) : String :=
  let n : ℤ := round (q * 100)
  let a := n.natAbs
  (if n < 0 then "-" else "") ++ toString (a / 100) ++ "." ++
    (if a % 100 < 10 then "0" else "") ++ toString (a % 100)

/-- One element of the `sources` list returned by `generate_response`
(lines 373-381). -/
structure SourceInfo where
  chunk : String
  relevance : ℚ
  document : String
  dtype : String
deriving DecidableEq

/-- The dict returned by `generate_response` (lines 371-383). -/
structure GenResult where
  answer : String
  sources : List SourceInfo
  context : String
deriving DecidableEq

/-- The user prompt assembled at lines 350-356. -/
def userMessage (context query : String) : String :=
  "Context from AER Directives:\n\n" ++ context ++ "\n\nQuestion: " ++ query ++
    "\n\nProvide a clear, professional answer based on the context above. Include relevant directive citations."

/-- `generate_response` (lines 312-383): retrieve via `search`, render
each result as a labeled source block (line 325-329, enumerating from
1), join with blank lines, call the generation provider `chat`, and
return the answer, sources and assembled context.  Metadata fields are
total in the model, so `metadata.get('document_name', 'Unknown')` is
the field itself. -/
def generate_response (collection : Option (List StoreEntry))
    (embed : String → Except String (List ℚ)) (dist : List ℚ → List ℚ → ℚ)
    (chat : String → String → Except String String)
    (query : String) (top_k : Nat) (document_filter : Option String) :
    Except RagError GenResult × List ExtCall :=
  match search collection embed dist query top_k document_filter with
  | (Except.error e, tr) => (Except.error e, tr)
  | (Except.ok results, tr) =>
    let context_parts := results.enum.map (fun p =>
      "[Source " ++ toString (p.1 + 1) ++ " - " ++ p.2.2.2.document_name ++
        "] (Relevance: " ++ formatScore p.2.2.1 ++ "):\n" ++ p.2.1)
    let context := String.intercalate "\n\n" context_parts
    match chat system_message (userMessage context query) with
    | Except.error m =>
      (Except.error (RagError.provider m),
        tr ++ [ExtCall.chat system_message (userMessage context query)])
    | Except.ok answer =>
      (Except.ok
        { answer := answer
          sources := results.map (fun r =>
            { chunk := r.1, relevance := r.2.1, document := r.2.2.document_name,
              dtype := r.2.2.document_type })
          context := context },
        tr ++ [ExtCall.chat system_message (userMessage context query)])

/-- The store-facing tail of `build_index` (lines 189-214), entered
after extraction and chunking have produced the full in-memory entry
list.  `prior` is the state of the named collection before the run
(`none` when absent), `entries` the prepared entries.  The run first
calls the embedding provider (`create_embeddings`, line 190 — any
provider failure aborts before any store mutation), then deletes the
existing collection inside `try/except: pass` (lines 193-197), creates
a fresh one (line 199) and bulk-inserts (line 209).  The store
operations are modelled from the spec (section 6): delete-if-exists is
idempotent, `createOk`/`addOk` say whether the external create-
collection and bulk-insert calls succeed; a failed insert leaves the
freshly created, still-empty collection behind.  The result pair is
(collection state after the run, outcome). -/
def build_index_run (prior : Option (List StoreEntry)) (entries : List StoreEntry)
    (embedResult : Except String (List (List ℚ))) (createOk addOk : Bool) :
    Option (List StoreEntry) × Except String Unit :=
  match embedResult with
  | Except.error m => (prior, Except.error m)
  | Except.ok _ =>
    if createOk then
      if addOk then (some entries, Except.ok ())
      else (some [], Except.error "collection.add failed")
    else (none, Except.error "create_collection failed")

/-- A sampled metadata dict as returned by `collection.get` in
`load_index` (line 239): every key may be absent, matching the
`meta.get(...)` accesses of lines 242-247. -/
structure SampleMeta where
  document_id : Option String
  document_name : Option String
  document_type : Option String
  source_file : Option String
deriving DecidableEq

/-- One record of the in-memory document registry `self.documents`. -/
structure DocInfo where
  name : String
  dtype : String
  path : String
  chunks : Nat
deriving DecidableEq

/-- Dict lookup on the registry, modelled as an insertion-ordered
association list (Python dicts preserve insertion order). -/
def lookupDoc (did : String) : List (String × DocInfo) → Option DocInfo
  | [] => none
  | p :: rest => if p.1 = did then some p.2 else lookupDoc did rest

/-- The fresh Document record built at lines 244-249: name/type/path
from the metadata with defaults Unknown/Unknown/empty, chunk count 0. -/
def initInfo (m : SampleMeta) : DocInfo :=
  { name := m.document_name.getD "Unknown"
    dtype := m.document_type.getD "Unknown"
    path := m.source_file.getD ""
    chunks := 0 }

/-- First pass of the registry reconstruction (lines 241-249): register
an unseen truthy `document_id`. -/
def registerMeta (docs : List (String × DocInfo)) (m : SampleMeta) :
    List (String × DocInfo) :=
  match m.document_id with
  | none => docs
  | some did =>
    if did = "" then docs
    else if (lookupDoc did docs).isSome then docs
    else docs ++ [(did, initInfo m)]

/-- `self.documents[doc_id]['chunks'] += 1` (line 255). -/
def bumpChunk (docs : List (String × DocInfo)) (did : String) :
    List (String × DocInfo) :=
  docs.map (fun p => if p.1 = did then (p.1, { p.2 with chunks := p.2.chunks + 1 }) else p)

/-- Second pass of the registry reconstruction (lines 252-255):
increment the chunk count of every sampled entry whose `document_id`
is a registered key. -/
def countMeta (docs : List (String × DocInfo)) (m : SampleMeta) :
    List (String × DocInfo) :=
  match m.document_id with
  | none => docs
  | some did => if (lookupDoc did docs).isSome then bumpChunk docs did else docs

/-- The registry produced by the two loops of `load_index` over one
sampled metadata list, starting from the empty registry of a fresh
instance (line 38). -/
def load_registry (sample : List SampleMeta) : List (String × DocInfo) :=
  sample.foldl countMeta (sample.foldl registerMeta [])

/-- `load_index` registry reconstruction (lines 229-257): the sample is
`collection.get(limit=1000)`, i.e. the first `min(count, 1000)` stored
entries. -/
def load_index_registry (allMetas : List SampleMeta) : List (String × DocInfo) :=
  load_registry (allMetas.take 1000)

example : chunk_text "One. Two. Three.".toList 8 2 = some (["One. Two", "wo. Thre", "ree."].map String.toList) := by decide

lemma le_foldl_max (l : List ℚ) : ∀ d : ℚ, d ≤ l.foldl max d := by
  induction l with
  | nil => intro d; simp
  | cons x xs ih =>
    intro d
    simpa using le_trans (le_max_left d x) (ih (max d x))

lemma mem_le_foldl_max (l : List ℚ) : ∀ d : ℚ, ∀ x ∈ l, x ≤ l.foldl max d := by
  induction l with
  | nil => simp
  | cons y ys ih =>
    intro d x hx
    rcases List.mem_cons.mp hx with h | h
    · subst h
      simpa using le_trans (le_max_right d x) (le_foldl_max ys (max d x))
    · simpa using ih (max d y) x h

lemma le_maxDistOf (distances : List ℚ) (hne : distances ≠ []) :
    ∀ d ∈ distances, d ≤ maxDistOf distances := by
  cases distances with
  | nil => exact absurd rfl hne
  | cons d ds =>
    intro x hx
    rcases List.mem_cons.mp hx with h | h
    · subst h; exact le_foldl_max ds x
    · exact mem_le_foldl_max ds d x h

lemma maxDistOf_nonneg (distances : List ℚ) (hne : distances ≠ [])
    (hnn : ∀ d ∈ distances, 0 ≤ d) : 0 ≤ maxDistOf distances := by
  cases distances with
  | nil => exact absurd rfl hne
  | cons d ds =>
    exact le_trans (hnn d (List.mem_cons_self d ds)) (le_foldl_max ds d)

/-- C1: for a non-empty list of non-negative raw distances, every
normalized similarity score lies in [0,1]; smaller raw distance gives a
score at least as high (so the smallest-distance result has the highest
score); when the maximum distance is zero every score is exactly 1; and
the result list returned by `search` keeps the store's native order
(the chunk components of the zipped result are exactly the store's
chunk list, not re-sorted). -/
theorem C1_normalization (distances : List ℚ) (hne : distances ≠ [])
    (hnn : ∀ d ∈ distances, 0 ≤ d) :
    (∀ s ∈ simScores distances, 0 ≤ s ∧ s ≤ 1) ∧
    (∀ (i j : Nat) (di dj : ℚ), distances[i]? = some di → distances[j]? = some dj → di ≤ dj →
      ∀ si sj, (simScores distances)[i]? = some si →
        (simScores distances)[j]? = some sj → sj ≤ si) ∧
    (maxDistOf distances = 0 → ∀ s ∈ simScores distances, s = 1) ∧
    (∀ (chunks : List String) (metas : List EntryMeta),
      chunks.length = distances.length → metas.length = distances.length →
      (List.zip chunks (List.zip (simScores distances) metas)).map Prod.fst = chunks) := by
  refine ⟨?_, ?_, ?_, ?_⟩
  · intro s hs
    rcases List.mem_map.mp hs with ⟨d, hd, rfl⟩
    by_cases hpos : 0 < maxDistOf distances
    · simp only [if_pos hpos]
      constructor
      · have hle : d / maxDistOf distances ≤ 1 :=
          (div_le_one hpos).mpr (le_maxDistOf distances hne d hd)
        linarith
      · have hge : 0 ≤ d / maxDistOf distances := div_nonneg (hnn d hd) (le_of_lt hpos)
        linarith
    · simp only [if_neg hpos]
      norm_num
  · intro i j di dj hi hj hij si sj hsi hsj
    have hsi' : (distances.map (fun d =>
        if 0 < maxDistOf distances then 1 - d / maxDistOf distances else 1))[i]? = some si := hsi
    have hsj' : (distances.map (fun d =>
        if 0 < maxDistOf distances then 1 - d / maxDistOf distances else 1))[j]? = some sj := hsj
    rw [List.getElem?_map, hi] at hsi'
    rw [List.getElem?_map, hj] at hsj'
    simp only [Option.map_some'] at hsi' hsj'
    by_cases hpos : 0 < maxDistOf distances
    · rw [if_pos hpos] at hsi' hsj'
      have hdiv : di / maxDistOf distances ≤ dj / maxDistOf distances := by gcongr
      have e1 := Option.some.inj hsi'
      have e2 := Option.some.inj hsj'
      subst e1
      subst e2
      linarith
    · rw [if_neg hpos] at hsi' hsj'
      have e1 := Option.some.inj hsi'
      have e2 := Option.some.inj hsj'
      subst e1
      subst e2
      exact le_refl 1
  · intro hmax s hs
    rcases List.mem_map.mp hs with ⟨d, hd, rfl⟩
    rw [hmax]
    norm_num
  · intro chunks metas hc hm
    apply List.map_fst_zip
    simp [List.length_zip, simScores, hc, hm]

/-- C1 witness: concrete non-empty non-negative distance list. -/
theorem C1_normalization_witness :
    (([2, 1, 0] : List ℚ) ≠ [] ∧ (∀ d ∈ ([2, 1, 0] : List ℚ), 0 ≤ d)) ∧
    ((∀ s ∈ simScores [2, 1, 0], 0 ≤ s ∧ s ≤ 1) ∧
      (∀ (i j : Nat) (di dj : ℚ), ([2, 1, 0] : List ℚ)[i]? = some di →
        ([2, 1, 0] : List ℚ)[j]? = some dj → di ≤ dj →
        ∀ si sj, (simScores [2, 1, 0])[i]? = some si →
          (simScores [2, 1, 0])[j]? = some sj → sj ≤ si) ∧
      (maxDistOf [2, 1, 0] = 0 → ∀ s ∈ simScores [2, 1, 0], s = 1) ∧
      (∀ (chunks : List String) (metas : List EntryMeta),
        chunks.length = ([2, 1, 0] : List ℚ).length →
        metas.length = ([2, 1, 0] : List ℚ).length →
        (List.zip chunks (List.zip (simScores [2, 1, 0]) metas)).map Prod.fst = chunks)) :=
  ⟨⟨by decide, by decide⟩, C1_normalization [2, 1, 0] (by decide) (by decide)⟩

/-- C7: with no collection loaded, `search` and `generate_response`
fail with the NotLoaded condition, issue no external call at all (in
particular the embedding and generation providers are never contacted),
and this error is a constructor distinct from provider errors. -/
theorem C7_not_loaded (embed : String → Except String (List ℚ))
    (dist : List ℚ → List ℚ → ℚ) (chat : String → String → Except String String)
    (query : String) (top_k : Nat) (document_filter : Option String) :
    search none embed dist query top_k document_filter =
      (Except.error RagError.notLoaded, []) ∧
    generate_response none embed dist chat query top_k document_filter =
      (Except.error RagError.notLoaded, []) ∧
    ∀ m, RagError.notLoaded ≠ RagError.provider m := by
  refine ⟨rfl, rfl, ?_⟩
  intro m h
  exact RagError.noConfusion h

/-- C7 witness: concrete providers and query. -/
theorem C7_not_loaded_witness :
    search none (fun _ => Except.ok [1]) (fun _ _ => 0) "q" 5 none =
      (Except.error RagError.notLoaded, []) ∧
    generate_response none (fun _ => Except.ok [1]) (fun _ _ => 0)
      (fun _ _ => Except.ok "a") "q" 5 none = (Except.error RagError.notLoaded, []) ∧
    ∀ m, RagError.notLoaded ≠ RagError.provider m :=
  C7_not_loaded (fun _ => Except.ok [1]) (fun _ _ => 0) (fun _ _ => Except.ok "a") "q" 5 none

lemma search_congr_filter (coll : Option (List StoreEntry))
    (embed : String → Except String (List ℚ)) (dist : List ℚ → List ℚ → ℚ)
    (query : String) (top_k : Nat) (df₁ df₂ : Option String)
    (h : buildWhereFilter df₁ = buildWhereFilter df₂) :
    search coll embed dist query top_k df₁ = search coll embed dist query top_k df₂ := by
  cases coll with
  | none => rfl
  | some entries =>
    cases hi : embed query with
    | error m => simp [search, hi]
    | ok emb => simp [search, hi, h]

lemma generate_congr_filter (coll : Option (List StoreEntry))
    (embed : String → Except String (List ℚ)) (dist : List ℚ → List ℚ → ℚ)
    (chat : String → String → Except String String)
    (query : String) (top_k : Nat) (df₁ df₂ : Option String)
    (h : buildWhereFilter df₁ = buildWhereFilter df₂) :
    generate_response coll embed dist chat query top_k df₁ =
      generate_response coll embed dist chat query top_k df₂ := by
  unfold generate_response
  rw [search_congr_filter coll embed dist query top_k df₁ df₂ h]

/-- C10: a `None` or empty-string document filter disables filtering
exactly like the sentinel "All Documents": search and generate_response
results coincide for all three filter values. -/
theorem C10_falsy_filter (coll : Option (List StoreEntry))
    (embed : String → Except String (List ℚ)) (dist : List ℚ → List ℚ → ℚ)
    (chat : String → String → Except String String) (query : String) (top_k : Nat) :
    search coll embed dist query top_k none =
      search coll embed dist query top_k (some "All Documents") ∧
    search coll embed dist query top_k (some "") =
      search coll embed dist query top_k (some "All Documents") ∧
    generate_response coll embed dist chat query top_k none =
      generate_response coll embed dist chat query top_k (some "All Documents") ∧
    generate_response coll embed dist chat query top_k (some "") =
      generate_response coll embed dist chat query top_k (some "All Documents") := by
  have h1 : buildWhereFilter none = buildWhereFilter (some "All Documents") := by decide
  have h2 : buildWhereFilter (some "") = buildWhereFilter (some "All Documents") := by decide
  exact ⟨search_congr_filter coll embed dist query top_k _ _ h1,
    search_congr_filter coll embed dist query top_k _ _ h2,
    generate_congr_filter coll embed dist chat query top_k _ _ h1,
    generate_congr_filter coll embed dist chat query top_k _ _ h2⟩

/-- A concrete store entry used by concrete instantiations. -/
def sampleEntry : StoreEntry :=
  { id := "chunk_0", embedding := [1], document := "well measurement text",
    metadata :=
      { document_id := "directive_001", document_name := "Directive 001",
        document_type := "Compliance", chunk_index := 0,
        source_file := "directive_001.pdf" } }

/-- C3 counterexample: an ingestion run whose embedding step succeeds
but whose bulk-insert call fails happens after the existing collection
was already deleted (lines 193-197 run before line 209), so the
previously queryable collection is NOT unchanged: its chunk count drops
from 1 to 0.  This failure lies inside the window named by the claim
("after text extraction and chunking but before the bulk-insert step
completes"), refuting it. -/
theorem C3_counterexample :
    (build_index_run (some [sampleEntry]) [sampleEntry]
        (Except.ok [[1]]) true false).2 = Except.error "collection.add failed" ∧
    (build_index_run (some [sampleEntry]) [sampleEntry]
        (Except.ok [[1]]) true false).1 ≠ some [sampleEntry] ∧
    ((build_index_run (some [sampleEntry]) [sampleEntry]
        (Except.ok [[1]]) true false).1.getD []).length ≠
      ([sampleEntry] : List StoreEntry).length := by
  refine ⟨rfl, ?_, by decide⟩
  intro h
  simp [build_index_run] at h

/-- C3 amended: if the ingestion run fails during the embedding step —
after extraction and chunking but before any store mutation — the
previously queryable collection is unchanged (same contents, hence same
chunk count); a failure after the delete/create step (such as a failed
bulk insert) can instead leave the prior collection deleted or empty. -/
theorem C3_embed_failure_isolated (prior : Option (List StoreEntry))
    (entries : List StoreEntry) (m : String) (createOk addOk : Bool) :
    build_index_run prior entries (Except.error m) createOk addOk =
      (prior, Except.error m) := rfl

lemma mem_insertByLe (le : StoreEntry → StoreEntry → Bool) (e a : StoreEntry) :
    ∀ l : List StoreEntry, a ∈ insertByLe le e l ↔ a = e ∨ a ∈ l := by
  intro l
  induction l with
  | nil => simp [insertByLe]
  | cons x xs ih =>
    simp only [insertByLe]
    split
    · simp [List.mem_cons]
    · simp only [List.mem_cons, ih]
      tauto

lemma mem_sortByLe (le : StoreEntry → StoreEntry → Bool) (a : StoreEntry) :
    ∀ l : List StoreEntry, a ∈ sortByLe le l ↔ a ∈ l := by
  intro l
  induction l with
  | nil => simp [sortByLe]
  | cons x xs ih => simp [sortByLe, mem_insertByLe, ih, List.mem_cons]

lemma mem_collectionQuery (entries : List StoreEntry) (d : StoreEntry → ℚ) (k : Nat)
    (wf : Option String) (a : StoreEntry) (h : a ∈ collectionQuery entries d k wf) :
    a ∈ entries ∧ matchesWhere wf a.metadata = true := by
  unfold collectionQuery at h
  have h1 : a ∈ sortByLe (fun a b => decide (d a ≤ d b))
      (entries.filter (fun e => matchesWhere wf e.metadata)) := List.take_subset _ _ h
  have h2 := (mem_sortByLe _ a _).mp h1
  exact List.mem_filter.mp h2

/-- C4: when the document filter is a non-empty string different from
the sentinel "All Documents", every result returned by `search` carries
metadata whose `document_name` equals the filter (the modelled store
honors equality filters, as the claim assumes). -/
theorem C4_filter_correct (entries : List StoreEntry)
    (embed : String → Except String (List ℚ)) (dist : List ℚ → List ℚ → ℚ)
    (query : String) (top_k : Nat) (df : String)
    (hdf1 : df ≠ "") (hdf2 : df ≠ "All Documents")
    (results : List (String × ℚ × EntryMeta))
    (hres : (search (some entries) embed dist query top_k (some df)).1 =
      Except.ok results) :
    ∀ r ∈ results, r.2.2.document_name = df := by
  intro r hr
  cases hq : embed query with
  | error m =>
    rw [show search (some entries) embed dist query top_k (some df) =
        (Except.error (RagError.provider m), [ExtCall.embed query]) by
      simp [search, hq]] at hres
    exact absurd hres (by simp)
  | ok qemb =>
    have hwf : buildWhereFilter (some df) = some df := by
      simp [buildWhereFilter, hdf1, hdf2]
    have hsr : (search (some entries) embed dist query top_k (some df)).1 =
        Except.ok (List.zip
          ((collectionQuery entries (fun e => dist qemb e.embedding) top_k (some df)).map
            (fun e => e.document))
          (List.zip
            (simScores ((collectionQuery entries (fun e => dist qemb e.embedding) top_k
              (some df)).map (fun e => dist qemb e.embedding)))
            ((collectionQuery entries (fun e => dist qemb e.embedding) top_k
              (some df)).map (fun e => e.metadata)))) := by
      simp [search, hq, hwf]
    rw [hsr] at hres
    have hres' := Except.ok.inj hres
    subst hres'
    obtain ⟨c, s, m⟩ := r
    have h1 := List.of_mem_zip hr
    have h2 := List.of_mem_zip h1.2
    have hm : m ∈ (collectionQuery entries (fun e => dist qemb e.embedding) top_k
        (some df)).map (fun e => e.metadata) := h2.2
    rcases List.mem_map.mp hm with ⟨e, he, rfl⟩
    have := (mem_collectionQuery _ _ _ _ _ he).2
    simpa [matchesWhere] using this

/-- A concrete entry whose document name is "Directive 017". -/
def entry017 : StoreEntry :=
  { id := "chunk_1", embedding := [1], document := "measurement schedule text",
    metadata :=
      { document_id := "directive_017", document_name := "Directive 017",
        document_type := "Measurement Requirements", chunk_index := 0,
        source_file := "directive_017.pdf" } }

/-- C4 witness: a one-entry store and the filter "Directive 017". -/
theorem C4_filter_correct_witness :
    ("Directive 017" ≠ "" ∧ "Directive 017" ≠ "All Documents" ∧
      (search (some [entry017]) (fun _ => Except.ok [1]) (fun _ _ => 0) "q" 5
        (some "Directive 017")).1 =
        Except.ok [("measurement schedule text", 1, entry017.metadata)]) ∧
    ∀ r ∈ [(("measurement schedule text" : String), (1 : ℚ), entry017.metadata)],
      r.2.2.document_name = "Directive 017" :=
  ⟨⟨by decide, by decide, rfl⟩,
    C4_filter_correct [entry017] (fun _ => Except.ok [1]) (fun _ _ => 0) "q" 5
      "Directive 017" (by decide) (by decide)
      [("measurement schedule text", 1, entry017.metadata)] rfl⟩

/-- C6: a document filter matching zero stored entries yields an empty
result list from `search` (no error), and `generate_response` on that
empty result list still issues the generation call and returns a dict
whose sources list is empty, whose context is the empty string, and
whose answer is the provider's generated text. -/
theorem C6_empty_filter (entries : List StoreEntry)
    (embed : String → Except String (List ℚ)) (dist : List ℚ → List ℚ → ℚ)
    (chat : String → String → Except String String)
    (query : String) (top_k : Nat) (df : String) (a : String) (emb : List ℚ)
    (hdf1 : df ≠ "") (hdf2 : df ≠ "All Documents")
    (hmatch : ∀ e ∈ entries, e.metadata.document_name ≠ df)
    (hembed : embed query = Except.ok emb)
    (hchat : ∀ s u, chat s u = Except.ok a) :
    (search (some entries) embed dist query top_k (some df)).1 = Except.ok [] ∧
    generate_response (some entries) embed dist chat query top_k (some df) =
      (Except.ok { answer := a, sources := [], context := "" },
        [ExtCall.embed query, ExtCall.storeQuery top_k (some df),
          ExtCall.chat system_message (userMessage "" query)]) := by
  have hwf : buildWhereFilter (some df) = some df := by
    simp [buildWhereFilter, hdf1, hdf2]
  have hfil : entries.filter (fun e => matchesWhere (some df) e.metadata) = [] := by
    rw [List.filter_eq_nil_iff]
    intro e he
    simp only [matchesWhere, beq_iff_eq]
    simpa using hmatch e he
  have hq : collectionQuery entries (fun e => dist emb e.embedding) top_k (some df) = [] := by
    unfold collectionQuery
    rw [hfil]
    simp [sortByLe]
  have hsearch : search (some entries) embed dist query top_k (some df) =
      (Except.ok [], [ExtCall.embed query, ExtCall.storeQuery top_k (some df)]) := by
    simp [search, hembed, hwf, hq]
  refine ⟨by rw [hsearch], ?_⟩
  unfold generate_response
  rw [hsearch]
  have hint : String.intercalate "\n\n" ([] : List String) = "" := rfl
  simp [hchat, hint]

/-- C6 witness: a store holding only "Directive 001" chunks queried
with the filter "Nonexistent Doc". -/
theorem C6_empty_filter_witness :
    ("Nonexistent Doc" ≠ "" ∧ "Nonexistent Doc" ≠ "All Documents" ∧
      (∀ e ∈ [sampleEntry], e.metadata.document_name ≠ "Nonexistent Doc")) ∧
    (search (some [sampleEntry]) (fun _ => Except.ok [1]) (fun _ _ => 0) "q" 5
      (some "Nonexistent Doc")).1 = Except.ok [] ∧
    generate_response (some [sampleEntry]) (fun _ => Except.ok [1]) (fun _ _ => 0)
      (fun _ _ => Except.ok "No relevant information was found in the provided context.")
      "q" 5 (some "Nonexistent Doc") =
      (Except.ok { answer := "No relevant information was found in the provided context.",
                   sources := [], context := "" },
        [ExtCall.embed "q", ExtCall.storeQuery 5 (some "Nonexistent Doc"),
          ExtCall.chat system_message (userMessage "" "q")]) :=
  ⟨⟨by decide, by decide, by decide⟩,
    C6_empty_filter [sampleEntry] (fun _ => Except.ok [1]) (fun _ _ => 0)
      (fun _ _ => Except.ok "No relevant information was found in the provided context.")
      "q" 5 "Nonexistent Doc"
      "No relevant information was found in the provided context." [1]
      (by decide) (by decide) (by decide) rfl (fun _ _ => rfl)⟩


/-- A text on which the chunking loop never advances when `S = 10`,
`O = 9`: the first window is "aaaaaaaa.a", whose last period sits at
index 8 (and 2*8 > 10), so the window is cut at `end = 9` and the
cursor moves to `end - overlap = 0` again. -/
def c2text : List Char := "aaaaaaaa.aaaaaaa".toList

/-- The chunking loop from cursor 0 exhausts every fuel bound, i.e. the
Python while-loop never reaches `start >= len(text)`. -/
def chunkLoopDiverges (t : List Char) (S O : Nat) : Prop :=
  ∀ fuel acc, chunkLoop t S O fuel 0 acc = none

lemma c2_diverges : chunkLoopDiverges c2text 10 9 := by
  have hlen : (0 : Int) < (c2text.length : Int) := by decide
  have hstep : (chunkStep c2text 10 9 0).2 = 0 := by decide
  intro fuel
  induction fuel with
  | zero =>
    intro acc
    show (if (0 : Int) < (c2text.length : Int) then none else some acc) = none
    rw [if_pos hlen]
  | succ fuel ih =>
    intro acc
    simp only [chunkLoop]
    rw [if_pos hlen, hstep]
    exact ih _

/-- C2 counterexample: with chunk size 10 and overlap 9 (an overlap
strictly smaller than the size, as the claim requires) the loop of
`chunk_text` never terminates on the text "aaaaaaaa.aaaaaaa": the
cursor returns to 0 on every iteration, so `start` never reaches the
length of the text. -/
theorem C2_counterexample :
    0 < 10 ∧ 9 < 10 ∧ chunkLoopDiverges c2text 10 9 ∧ chunk_text c2text 10 9 = none :=
  ⟨by decide, by decide, c2_diverges, c2_diverges _ _⟩

lemma chunkStep_advance (t : List Char) (S O : Nat) (start : Int)
    (hS : 0 < S) (hO : 2 * O ≤ S) : start + 1 ≤ (chunkStep t S O start).2 := by
  have hOS : 2 * (O : Int) ≤ (S : Int) := by exact_mod_cast hO
  have hS' : (0 : Int) < (S : Int) := by exact_mod_cast hS
  unfold chunkStep
  split
  · split
    · rename_i h1 h2
      omega
    · rename_i h1 h2
      omega
  · rename_i h1
    omega

lemma chunkLoop_total (t : List Char) (S O : Nat) (hS : 0 < S) (hO : 2 * O ≤ S) :
    ∀ fuel : Nat, ∀ start : Int, ∀ acc : List (List Char),
      (t.length : Int) ≤ start + fuel → (chunkLoop t S O fuel start acc).isSome := by
  intro fuel
  induction fuel with
  | zero =>
    intro start acc h
    simp only [chunkLoop]
    rw [if_neg (by push_cast at h ⊢; omega)]
    simp
  | succ fuel ih =>
    intro start acc h
    simp only [chunkLoop]
    split
    · rename_i hlt
      apply ih
      have hadv := chunkStep_advance t S O start hS hO
      push_cast at h ⊢
      omega
    · simp

/-- C2 amended: the chunking loop terminates for every text whenever
the overlap is at most half the chunk size (2*O ≤ S with S > 0); the
claim's weaker premise O < S does not suffice, as the counterexample
with S = 10, O = 9 shows. -/
theorem C2_termination (t : List Char) (S O : Nat) (hS : 0 < S) (hO : 2 * O ≤ S) :
    (chunk_text t S O).isSome := by
  unfold chunk_text
  apply chunkLoop_total t S O hS hO
  push_cast
  omega

/-- C2 witness: concrete terminating run. -/
theorem C2_termination_witness :
    (0 < 10 ∧ 2 * 3 ≤ 10) ∧ (chunk_text "hello. world".toList 10 3).isSome :=
  ⟨by decide, C2_termination "hello. world".toList 10 3 (by decide) (by decide)⟩


lemma dropWhile_idem (p : Char → Bool) (l : List Char) :
    (l.dropWhile p).dropWhile p = l.dropWhile p := by
  cases h : l.dropWhile p with
  | nil => simp
  | cons x xs =>
    have hx := List.head?_dropWhile_not p l
    rw [h] at hx
    have hpx : p x = false := by simpa using hx
    rw [List.dropWhile_cons, hpx]
    simp

lemma stripFront_of_strip (p : Char → Bool) (l : List Char) :
    (((l.dropWhile p).reverse.dropWhile p).reverse).dropWhile p =
      ((l.dropWhile p).reverse.dropWhile p).reverse := by
  set s1 := l.dropWhile p with hs1
  set s2 := (s1.reverse.dropWhile p).reverse with hs2
  cases hc : s2 with
  | nil => rfl
  | cons a rest =>
    have hsplit : s2 ++ (s1.reverse.takeWhile p).reverse = s1 := by
      rw [hs2, ← List.reverse_append, List.takeWhile_append_dropWhile,
        List.reverse_reverse]
    have hhead : s1.head? = some a := by
      rw [← hsplit, hc]
      rfl
    have hpa : p a = false := by
      have hx := List.head?_dropWhile_not p l
      rw [← hs1, hhead] at hx
      simpa using hx
    rw [List.dropWhile_cons, hpa]
    simp

lemma pyStrip_idem (l : List Char) : pyStrip (pyStrip l) = pyStrip l := by
  unfold pyStrip
  rw [stripFront_of_strip, List.reverse_reverse]
  exact stripFront_of_strip pyIsSpace l

lemma chunkLoop_chunks_stripped (t : List Char) (S O : Nat) :
    ∀ (fuel : Nat) (start : Int) (acc r : List (List Char)),
      (∀ c ∈ acc, pyStrip c = c ∧ c ≠ []) →
      chunkLoop t S O fuel start acc = some r → ∀ c ∈ r, pyStrip c = c ∧ c ≠ [] := by
  intro fuel
  induction fuel with
  | zero =>
    intro start acc r hacc h
    simp only [chunkLoop] at h
    split at h
    · exact absurd h (by simp)
    · obtain rfl := Option.some.inj h
      exact hacc
  | succ fuel ih =>
    intro start acc r hacc h
    simp only [chunkLoop] at h
    by_cases hlt : start < (t.length : Int)
    · rw [if_pos hlt] at h
      by_cases hc : pyStrip (chunkStep t S O start).1 = []
      · rw [if_pos hc] at h
        exact ih _ _ r hacc h
      · rw [if_neg hc] at h
        refine ih _ _ r ?_ h
        intro c hcm
        rcases List.mem_append.mp hcm with hm | hm
        · exact hacc c hm
        · rcases List.mem_singleton.mp hm with rfl
          exact ⟨pyStrip_idem _, hc⟩
    · rw [if_neg hlt] at h
      obtain rfl := Option.some.inj h
      exact hacc

lemma pyStrip_all_space (l : List Char) (h : ∀ c ∈ l, pyIsSpace c) : pyStrip l = [] := by
  unfold pyStrip
  rw [List.dropWhile_eq_nil_iff.mpr h]
  rfl

lemma mem_pySlice (l : List Char) (a b : Int) (c : Char) (h : c ∈ pySlice l a b) :
    c ∈ l := by
  unfold pySlice at h
  exact List.mem_of_mem_take (List.mem_of_mem_drop h)

lemma mem_chunkStep_fst (t : List Char) (S O : Nat) (start : Int) (c : Char)
    (h : c ∈ (chunkStep t S O start).1) : c ∈ t := by
  unfold chunkStep at h
  split at h
  · split at h
    · exact mem_pySlice _ _ _ _ (mem_pySlice _ _ _ _ h)
    · exact mem_pySlice _ _ _ _ h
  · exact mem_pySlice _ _ _ _ h

lemma lastIdxOf_eq_none (c : Char) (l : List Char) (h : c ∉ l) : lastIdxOf c l = none := by
  induction l with
  | nil => rfl
  | cons x xs ih =>
    simp only [List.mem_cons, not_or] at h
    simp only [lastIdxOf, ih h.2]
    rw [if_neg (fun e => h.1 (by rw [e]))]

lemma maxTerm_all_space (l : List Char) (h : ∀ c ∈ l, pyIsSpace c) : maxTerm l = -1 := by
  have hd : '.' ∉ l := fun hm => by simpa [pyIsSpace] using h _ hm
  have hq : '?' ∉ l := fun hm => by simpa [pyIsSpace] using h _ hm
  have hb : '!' ∉ l := fun hm => by simpa [pyIsSpace] using h _ hm
  unfold maxTerm pyRfind
  rw [lastIdxOf_eq_none _ _ hd, lastIdxOf_eq_none _ _ hq, lastIdxOf_eq_none _ _ hb]
  decide

lemma chunkLoop_ws (t : List Char) (S O : Nat) (hOS : O < S)
    (hws : ∀ c ∈ t, pyIsSpace c) :
    ∀ (fuel : Nat) (start : Int), (t.length : Int) ≤ start + fuel →
      chunkLoop t S O fuel start [] = some [] := by
  intro fuel
  induction fuel with
  | zero =>
    intro start h
    simp only [chunkLoop]
    rw [if_neg (by push_cast at h ⊢; omega)]
  | succ fuel ih =>
    intro start h
    simp only [chunkLoop]
    by_cases hlt : start < (t.length : Int)
    · rw [if_pos hlt]
      have hchunkws : ∀ c ∈ (chunkStep t S O start).1, pyIsSpace c :=
        fun c hc => hws c (mem_chunkStep_fst _ _ _ _ _ hc)
      rw [if_pos (pyStrip_all_space _ hchunkws)]
      have hstep : (chunkStep t S O start).2 = start + (S : Int) - (O : Int) := by
        unfold chunkStep
        split
        · have hm : maxTerm (pySlice t start (start + (S : Int))) = -1 :=
            maxTerm_all_space _ (fun c hc => hws c (mem_pySlice _ _ _ _ hc))
          rw [hm, if_neg (by omega : ¬ (S : Int) < 2 * (-1 : Int))]
        · rfl
      rw [hstep]
      apply ih
      push_cast at h ⊢
      omega
    · rw [if_neg hlt]

lemma chunkLoop_acc_mem (t : List Char) (S O : Nat) :
    ∀ (fuel : Nat) (start : Int) (acc r : List (List Char)),
      chunkLoop t S O fuel start acc = some r → ∀ c ∈ acc, c ∈ r := by
  intro fuel
  induction fuel with
  | zero =>
    intro start acc r h
    simp only [chunkLoop] at h
    split at h
    · exact absurd h (by simp)
    · obtain rfl := Option.some.inj h
      exact fun c hc => hc
  | succ fuel ih =>
    intro start acc r h
    simp only [chunkLoop] at h
    by_cases hlt : start < (t.length : Int)
    · rw [if_pos hlt] at h
      intro c hc
      refine ih _ _ r h c ?_
      by_cases hs : pyStrip (chunkStep t S O start).1 = []
      · rwa [if_pos hs]
      · rw [if_neg hs]
        exact List.mem_append_left _ hc
    · rw [if_neg hlt] at h
      obtain rfl := Option.some.inj h
      exact fun c hc => hc

/-- C9: every chunk returned by `chunk_text` is non-empty and equal to
its own strip; whitespace-only (or empty) input yields an empty chunk
list (with O < S so that the loop over whitespace terminates); and a
short final window near the end of the text — a loop state with
start < len(text) ≤ start + S — still emits its trimmed content into
the returned chunk list whenever that content is non-empty. -/
theorem C9_nonempty_chunks (t : List Char) (S O : Nat) :
    (∀ r, chunk_text t S O = some r → ∀ c ∈ r, pyStrip c = c ∧ c ≠ []) ∧
    (O < S → (∀ c ∈ t, pyIsSpace c) → chunk_text t S O = some []) ∧
    (∀ (fuel : Nat) (start : Int) (acc r : List (List Char)),
      start < (t.length : Int) → (t.length : Int) ≤ start + (S : Int) →
      chunkLoop t S O fuel start acc = some r →
      pyStrip (pySlice t start (start + (S : Int))) ≠ [] →
      pyStrip (pySlice t start (start + (S : Int))) ∈ r) := by
  refine ⟨?_, ?_, ?_⟩
  · intro r h
    exact chunkLoop_chunks_stripped t S O _ 0 [] r (by simp) h
  · intro hOS hws
    unfold chunk_text
    apply chunkLoop_ws t S O hOS hws
    push_cast
    omega
  · intro fuel start acc r hlt hfin h hne
    have hstep : chunkStep t S O start =
        (pySlice t start (start + (S : Int)), start + (S : Int) - (O : Int)) := by
      unfold chunkStep
      rw [if_neg (by omega)]
    cases fuel with
    | zero =>
      simp only [chunkLoop, if_pos hlt] at h
      exact absurd h (by simp)
    | succ fuel =>
      simp only [chunkLoop] at h
      rw [if_pos hlt, hstep] at h
      rw [if_neg hne] at h
      exact chunkLoop_acc_mem t S O _ _ _ r h _
        (List.mem_append_right _ (List.mem_singleton.mpr rfl))

/-- C9 witness: whitespace-only input with S = 2, O = 1 for the first
two parts; for the final-window part, the text "ab" with S = 3 is one
short window whose trimmed content "ab" appears in the output. -/
theorem C9_nonempty_chunks_witness :
    (∀ c ∈ ([] : List (List Char)), pyStrip c = c ∧ c ≠ []) ∧
    (1 < 2 ∧ (∀ c ∈ "   ".toList, pyIsSpace c)) ∧
    chunk_text "   ".toList 2 1 = some [] ∧
    ((0 : Int) < ("ab".toList.length : Int) ∧
      ("ab".toList.length : Int) ≤ 0 + ((3 : Nat) : Int) ∧
      chunkLoop "ab".toList 3 1 3 0 [] = some ["ab".toList] ∧
      pyStrip (pySlice "ab".toList 0 (0 + ((3 : Nat) : Int))) ≠ []) ∧
    pyStrip (pySlice "ab".toList 0 (0 + ((3 : Nat) : Int))) ∈ ["ab".toList] :=
  ⟨(C9_nonempty_chunks "   ".toList 2 1).1 [] (by decide),
   ⟨by decide, by decide⟩,
   (C9_nonempty_chunks "   ".toList 2 1).2.1 (by decide) (by decide),
   ⟨by decide, by decide, by decide, by decide⟩,
   (C9_nonempty_chunks "ab".toList 3 1).2.2 3 0 [] ["ab".toList]
     (by decide) (by decide) (by decide) (by decide)⟩


lemma pyRfind_eq_some (l : List Char) (c : Char) (i : Nat)
    (h : lastIdxOf c l = some i) : pyRfind l c = (i : Int) := by
  unfold pyRfind
  rw [h]

lemma pyRfind_eq_none (l : List Char) (c : Char)
    (h : lastIdxOf c l = none) : pyRfind l c = -1 := by
  unfold pyRfind
  rw [h]

lemma neg_one_le_pyRfind (l : List Char) (c : Char) : -1 ≤ pyRfind l c := by
  cases h : lastIdxOf c l with
  | some i =>
    rw [pyRfind_eq_some l c i h]
    omega
  | none =>
    rw [pyRfind_eq_none l c h]

lemma pyRfind_cons (c x : Char) (xs : List Char) :
    pyRfind (x :: xs) c =
      if 0 ≤ pyRfind xs c then pyRfind xs c + 1 else if x = c then 0 else -1 := by
  cases h : lastIdxOf c xs with
  | some i =>
    have hx : lastIdxOf c (x :: xs) = some (i + 1) := by
      simp only [lastIdxOf, h]
    rw [pyRfind_eq_some _ _ _ hx, pyRfind_eq_some _ _ _ h,
      if_pos (Int.natCast_nonneg i)]
    push_cast
    ring
  | none =>
    rw [pyRfind_eq_none _ _ h, if_neg (by omega)]
    by_cases hxc : x = c
    · have hx : lastIdxOf c (x :: xs) = some 0 := by
        simp only [lastIdxOf, h, if_pos hxc]
      rw [pyRfind_eq_some _ _ _ hx, if_pos hxc]
      rfl
    · have hx : lastIdxOf c (x :: xs) = none := by
        simp only [lastIdxOf, h, if_neg hxc]
      rw [pyRfind_eq_none _ _ hx, if_neg hxc]

lemma char_terminal_case (x : Char) :
    (x = '.' ∧ x ≠ '?' ∧ x ≠ '!' ∧ isTerminal x = true) ∨
    (x ≠ '.' ∧ x = '?' ∧ x ≠ '!' ∧ isTerminal x = true) ∨
    (x ≠ '.' ∧ x ≠ '?' ∧ x = '!' ∧ isTerminal x = true) ∨
    (x ≠ '.' ∧ x ≠ '?' ∧ x ≠ '!' ∧ isTerminal x = false) := by
  by_cases e1 : x = '.'
  · subst e1
    exact Or.inl ⟨rfl, by decide, by decide, by decide⟩
  · by_cases e2 : x = '?'
    · subst e2
      exact Or.inr (Or.inl ⟨by decide, rfl, by decide, by decide⟩)
    · by_cases e3 : x = '!'
      · subst e3
        exact Or.inr (Or.inr (Or.inl ⟨by decide, by decide, rfl, by decide⟩))
      · refine Or.inr (Or.inr (Or.inr ⟨e1, e2, e3, ?_⟩))
        simp [isTerminal, e1, e2, e3]

lemma maxTerm_cons (x : Char) (xs : List Char) :
    maxTerm (x :: xs) =
      if 0 ≤ maxTerm xs then maxTerm xs + 1 else if isTerminal x then 0 else -1 := by
  unfold maxTerm
  rw [pyRfind_cons '.' x xs, pyRfind_cons '?' x xs, pyRfind_cons '!' x xs]
  have h1 := neg_one_le_pyRfind xs '.'
  have h2 := neg_one_le_pyRfind xs '?'
  have h3 := neg_one_le_pyRfind xs '!'
  rcases char_terminal_case x with ⟨e1, e2, e3, eT⟩ | ⟨e1, e2, e3, eT⟩ |
      ⟨e1, e2, e3, eT⟩ | ⟨e1, e2, e3, eT⟩
  · rw [if_pos e1, if_neg e2, if_neg e3, if_pos eT]
    simp only [max_def]
    split_ifs <;> omega
  · rw [if_neg e1, if_pos e2, if_neg e3, if_pos eT]
    simp only [max_def]
    split_ifs <;> omega
  · rw [if_neg e1, if_neg e2, if_pos e3, if_pos eT]
    simp only [max_def]
    split_ifs <;> omega
  · rw [if_neg e1, if_neg e2, if_neg e3,
      if_neg (show ¬isTerminal x = true by simp [eT])]
    simp only [max_def]
    split_ifs <;> omega

lemma maxTerm_eq_lastTerminalIdx (w : List Char) :
    maxTerm w = match lastTerminalIdx w with | some i => (i : Int) | none => -1 := by
  induction w with
  | nil => decide
  | cons x xs ih =>
    rw [maxTerm_cons]
    cases h : lastTerminalIdx xs with
    | some i =>
      rw [h] at ih
      have ih2 : maxTerm xs = (i : Int) := ih
      have hx : lastTerminalIdx (x :: xs) = some (i + 1) := by
        simp only [lastTerminalIdx, h]
      rw [hx, ih2, if_pos (Int.natCast_nonneg i)]
      push_cast
      ring
    | none =>
      rw [h] at ih
      have ih2 : maxTerm xs = -1 := ih
      rw [ih2, if_neg (by omega)]
      cases hT : isTerminal x
      · have hx : lastTerminalIdx (x :: xs) = none := by
          simp only [lastTerminalIdx, h, hT]
          rfl
        rw [hx, if_neg (by simp [hT])]
      · have hx : lastTerminalIdx (x :: xs) = some 0 := by
          simp only [lastTerminalIdx, h, hT]
          rfl
        rw [hx]
        rfl

lemma take_min_length (l : List Char) (n : Nat) : l.take (min n l.length) = l.take n := by
  induction l generalizing n with
  | nil => simp
  | cons x xs ih =>
    cases n with
    | zero => simp
    | succ m =>
      simp only [List.length_cons, Nat.succ_min_succ, List.take_succ_cons]
      rw [ih]

lemma pySlice_zero_natCast (l : List Char) (n : Nat) :
    pySlice l 0 ((n : Int)) = l.take n := by
  unfold pySlice pyIdx
  rw [if_neg (by omega), if_neg (by omega)]
  have h0 : (min (0 : Int) (l.length : Int)).toNat = 0 := by
    rw [min_eq_left (Int.natCast_nonneg l.length)]
    rfl
  have h1 : (min (n : Int) (l.length : Int)).toNat = min n l.length := by
    rw [← Nat.cast_min n l.length]
    exact Int.toNat_natCast _
  rw [h0, h1, List.drop_zero, take_min_length]


/-- C5: one chunking step takes the window [start, start+S); when the
window does not reach the end of the text and the last sentence-terminal
character of the window (per the spec's backward search, formalised by
`lastTerminalIdx`) sits at a position strictly greater than S/2 (the
exact integer condition S < 2*i), the window is truncated inclusively at
that character and the cursor advances to (start+i+1) - O; otherwise the
full window is kept and the cursor advances to (start+S) - O; and
chunking is deterministic (equal inputs give equal chunk sequences). -/
theorem C5_step_rule (t : List Char) (S O : Nat) (start : Int) :
    (start + (S : Int) < (t.length : Int) →
      (∀ i : Nat, lastTerminalIdx (pySlice t start (start + (S : Int))) = some i →
        ((S : Int) < 2 * (i : Int) →
          chunkStep t S O start =
            ((pySlice t start (start + (S : Int))).take (i + 1),
              start + (i : Int) + 1 - (O : Int))) ∧
        (2 * (i : Int) ≤ (S : Int) →
          chunkStep t S O start =
            (pySlice t start (start + (S : Int)), start + (S : Int) - (O : Int)))) ∧
      (lastTerminalIdx (pySlice t start (start + (S : Int))) = none →
        chunkStep t S O start =
          (pySlice t start (start + (S : Int)), start + (S : Int) - (O : Int)))) ∧
    ((t.length : Int) ≤ start + (S : Int) →
      chunkStep t S O start =
        (pySlice t start (start + (S : Int)), start + (S : Int) - (O : Int))) ∧
    chunk_text t S O = chunk_text t S O := by
  refine ⟨fun hlt => ⟨fun i hi => ?_, fun hnone => ?_⟩, fun hge => ?_, rfl⟩
  · have hmax : maxTerm (pySlice t start (start + (S : Int))) = (i : Int) := by
      rw [maxTerm_eq_lastTerminalIdx, hi]
    constructor
    · intro h2i
      unfold chunkStep
      rw [if_pos hlt, hmax, if_pos h2i]
      have hcast : ((i : Int) + 1) = ((i + 1 : Nat) : Int) := by push_cast; ring
      rw [hcast, pySlice_zero_natCast]
    · intro h2i
      unfold chunkStep
      rw [if_pos hlt, hmax, if_neg (by omega)]
  · have hmax : maxTerm (pySlice t start (start + (S : Int))) = -1 := by
      rw [maxTerm_eq_lastTerminalIdx, hnone]
    unfold chunkStep
    rw [if_pos hlt, hmax, if_neg (by omega)]
  · unfold chunkStep
    rw [if_neg (by omega)]

/-- C5 witness: the window "Alpha. B" of size 8 truncates at the period
(index 5, and 8 < 2*5) and the cursor advances to 6 - 3 = 3. -/
theorem C5_step_rule_witness :
    ((0 : Int) + ((8 : Nat) : Int) < ("Alpha. Beta? Gamma".toList.length : Int) ∧
      lastTerminalIdx
        (pySlice "Alpha. Beta? Gamma".toList 0 (0 + ((8 : Nat) : Int))) = some 5 ∧
      ((8 : Nat) : Int) < 2 * ((5 : Nat) : Int)) ∧
    chunkStep "Alpha. Beta? Gamma".toList 8 3 0 =
      ((pySlice "Alpha. Beta? Gamma".toList 0 (0 + ((8 : Nat) : Int))).take (5 + 1),
        0 + ((5 : Nat) : Int) + 1 - ((3 : Nat) : Int)) :=
  ⟨⟨by decide, by decide, by decide⟩,
    (((C5_step_rule "Alpha. Beta? Gamma".toList 8 3 0).1 (by decide)).1 5
      (by decide)).1 (by decide)⟩


lemma lookupDoc_append_single (docs : List (String × DocInfo)) (did d' : String)
    (v : DocInfo) :
    lookupDoc did (docs ++ [(d', v)]) =
      match lookupDoc did docs with
      | some w => some w
      | none => if d' = did then some v else none := by
  induction docs with
  | nil => simp [lookupDoc]
  | cons p rest ih =>
    by_cases h : p.1 = did
    · simp [lookupDoc, h]
    · simp only [List.cons_append, lookupDoc, if_neg h]
      exact ih

lemma lookupDoc_eq_none_iff (did : String) (docs : List (String × DocInfo)) :
    lookupDoc did docs = none ↔ did ∉ docs.map Prod.fst := by
  induction docs with
  | nil => simp [lookupDoc]
  | cons p rest ih =>
    by_cases h : p.1 = did
    · simp [lookupDoc, h]
    · simp only [lookupDoc, if_neg h, List.map_cons, List.mem_cons, ih]
      constructor
      · rintro hn (h1 | h2)
        · exact h h1.symm
        · exact hn h2
      · intro hn
        exact fun h2 => hn (Or.inr h2)

lemma registerMeta_lookup_some (docs : List (String × DocInfo)) (m : SampleMeta)
    (did : String) (v : DocInfo) (h : lookupDoc did docs = some v) :
    lookupDoc did (registerMeta docs m) = some v := by
  cases hid : m.document_id with
  | none =>
    simp only [registerMeta, hid]
    exact h
  | some d' =>
    simp only [registerMeta, hid]
    by_cases h1 : d' = ""
    · rw [if_pos h1]; exact h
    · rw [if_neg h1]
      by_cases h2 : (lookupDoc d' docs).isSome
      · rw [if_pos h2]; exact h
      · rw [if_neg h2, lookupDoc_append_single, h]

lemma foldl_registerMeta_lookup_some (sample : List SampleMeta) :
    ∀ (docs : List (String × DocInfo)) (did : String) (v : DocInfo),
      lookupDoc did docs = some v →
      lookupDoc did (sample.foldl registerMeta docs) = some v := by
  induction sample with
  | nil => intro docs did v h; exact h
  | cons m rest ih =>
    intro docs did v h
    exact ih _ _ _ (registerMeta_lookup_some docs m did v h)

lemma foldl_registerMeta_lookup_none (sample : List SampleMeta) :
    ∀ (docs : List (String × DocInfo)) (did : String), did ≠ "" →
      lookupDoc did docs = none →
      lookupDoc did (sample.foldl registerMeta docs) =
        (sample.find? (fun m => decide (m.document_id = some did))).map initInfo := by
  induction sample with
  | nil =>
    intro docs did hne h
    simpa using h
  | cons m rest ih =>
    intro docs did hne h
    simp only [List.foldl_cons]
    by_cases hm : m.document_id = some did
    · rw [List.find?_cons_of_pos _ (by simpa using hm)]
      have hreg : registerMeta docs m = docs ++ [(did, initInfo m)] := by
        simp only [registerMeta, hm]
        rw [if_neg hne, if_neg (by simp [h])]
      rw [hreg]
      rw [foldl_registerMeta_lookup_some rest _ did (initInfo m)
        (by rw [lookupDoc_append_single, h, if_pos rfl])]
      rfl
    · rw [List.find?_cons_of_neg _ (by simpa using hm)]
      have hkeep : lookupDoc did (registerMeta docs m) = none := by
        cases hid : m.document_id with
        | none =>
          simp only [registerMeta, hid]
          exact h
        | some d' =>
          simp only [registerMeta, hid]
          by_cases h1 : d' = ""
          · rw [if_pos h1]; exact h
          · rw [if_neg h1]
            by_cases h2 : (lookupDoc d' docs).isSome
            · rw [if_pos h2]; exact h
            · rw [if_neg h2, lookupDoc_append_single, h,
                if_neg (fun e => hm (by rw [hid, e]))]
      exact ih _ _ hne hkeep


lemma bumpChunk_lookup (docs : List (String × DocInfo)) (did d' : String) :
    lookupDoc did (bumpChunk docs d') =
      (lookupDoc did docs).map
        (fun v => if did = d' then { v with chunks := v.chunks + 1 } else v) := by
  induction docs with
  | nil => simp [bumpChunk, lookupDoc]
  | cons p rest ih =>
    simp only [bumpChunk, List.map_cons]
    by_cases h1 : p.1 = d'
    · rw [if_pos h1]
      by_cases h2 : p.1 = did
      · have hdd : did = d' := by rw [← h2, h1]
        simp [lookupDoc, h2, hdd]
      · simp only [lookupDoc, if_neg h2]
        simpa [bumpChunk] using ih
    · rw [if_neg h1]
      by_cases h2 : p.1 = did
      · have hdd : ¬ did = d' := fun e => h1 (by rw [h2, e])
        simp [lookupDoc, h2, hdd]
      · simp only [lookupDoc, if_neg h2]
        simpa [bumpChunk] using ih

lemma countMeta_lookup (docs : List (String × DocInfo)) (m : SampleMeta) (did : String) :
    lookupDoc did (countMeta docs m) =
      (lookupDoc did docs).map
        (fun v => if m.document_id = some did then { v with chunks := v.chunks + 1 }
          else v) := by
  cases hid : m.document_id with
  | none =>
    simp only [countMeta, hid]
    cases lookupDoc did docs with
    | none => rfl
    | some v => simp
  | some d' =>
    simp only [countMeta, hid]
    by_cases hs : (lookupDoc d' docs).isSome
    · rw [if_pos hs, bumpChunk_lookup]
      by_cases hd : d' = did
      · subst hd
        cases lookupDoc d' docs with
        | none => rfl
        | some v => simp
      · cases hl : lookupDoc did docs with
        | none => rfl
        | some v =>
          have h1 : ¬ did = d' := fun e => hd e.symm
          have h2 : ¬ (some d' = some did) := fun e => hd (Option.some.inj e)
          simp [h1, h2]
    · rw [if_neg hs]
      by_cases hd : d' = did
      · subst hd
        have hnone : lookupDoc d' docs = none := Option.not_isSome_iff_eq_none.mp hs
        rw [hnone]
        rfl
      · have h2 : ¬ (some d' = some did) := fun e => hd (Option.some.inj e)
        cases lookupDoc did docs with
        | none => rfl
        | some v => simp [h2]

lemma foldl_countMeta_lookup (sample : List SampleMeta) :
    ∀ (docs : List (String × DocInfo)) (did : String),
      lookupDoc did (sample.foldl countMeta docs) =
      (lookupDoc did docs).map
        (fun v => { v with chunks :=
          v.chunks + sample.countP (fun m => decide (m.document_id = some did)) }) := by
  induction sample with
  | nil =>
    intro docs did
    simp only [List.foldl_nil, List.countP_nil, Nat.add_zero]
    cases hl : lookupDoc did docs with
    | none => rfl
    | some v => rfl
  | cons m rest ih =>
    intro docs did
    simp only [List.foldl_cons]
    rw [ih, countMeta_lookup, Option.map_map]
    cases hl : lookupDoc did docs with
    | none => rfl
    | some v =>
      simp only [Option.map_some', Function.comp]
      by_cases hm : m.document_id = some did
      · simp only [if_pos hm, List.countP_cons, hm]
        simp [DocInfo.mk.injEq]
        omega
      · simp [List.countP_cons, hm]


lemma keys_bumpChunk (docs : List (String × DocInfo)) (d' : String) :
    (bumpChunk docs d').map Prod.fst = docs.map Prod.fst := by
  unfold bumpChunk
  rw [List.map_map]
  apply List.map_congr_left
  intro p hp
  by_cases h : p.1 = d' <;> simp [h]

lemma keys_countMeta (docs : List (String × DocInfo)) (m : SampleMeta) :
    (countMeta docs m).map Prod.fst = docs.map Prod.fst := by
  cases hid : m.document_id with
  | none => simp only [countMeta, hid]
  | some d' =>
    simp only [countMeta, hid]
    split
    · exact keys_bumpChunk docs d'
    · rfl

lemma keys_foldl_countMeta (sample : List SampleMeta) :
    ∀ docs : List (String × DocInfo),
      (sample.foldl countMeta docs).map Prod.fst = docs.map Prod.fst := by
  induction sample with
  | nil => intro docs; rfl
  | cons m rest ih =>
    intro docs
    simp only [List.foldl_cons]
    rw [ih, keys_countMeta]

lemma nodup_keys_registerMeta (docs : List (String × DocInfo)) (m : SampleMeta)
    (h : (docs.map Prod.fst).Nodup) : ((registerMeta docs m).map Prod.fst).Nodup := by
  cases hid : m.document_id with
  | none => simpa only [registerMeta, hid] using h
  | some d' =>
    simp only [registerMeta, hid]
    by_cases h1 : d' = ""
    · rw [if_pos h1]; exact h
    · rw [if_neg h1]
      by_cases h2 : (lookupDoc d' docs).isSome
      · rw [if_pos h2]; exact h
      · rw [if_neg h2]
        have hnotin : d' ∉ docs.map Prod.fst :=
          (lookupDoc_eq_none_iff d' docs).mp (Option.not_isSome_iff_eq_none.mp h2)
        rw [List.map_append]
        apply List.Nodup.append h (by simp)
        simp only [List.map_cons, List.map_nil]
        intro a ha hb
        rw [List.mem_singleton.mp hb] at ha
        exact hnotin ha

lemma nodup_keys_foldl_register (sample : List SampleMeta) :
    ∀ docs : List (String × DocInfo),
      (docs.map Prod.fst).Nodup → ((sample.foldl registerMeta docs).map Prod.fst).Nodup := by
  induction sample with
  | nil => intro docs h; exact h
  | cons m rest ih =>
    intro docs h
    exact ih _ (nodup_keys_registerMeta docs m h)

/-- C8: after a fresh `load_index`, the registry has pairwise-distinct
keys; for each non-empty id, the registry holds a record exactly when
the id occurs among the first min(count, 1000) sampled entries, with
name/type/path from the first such entry (with defaults
Unknown/Unknown/empty) and chunk count equal to the number of sampled
entries carrying that id; that count never exceeds the true count over
the whole collection (it undercounts whatever lies beyond the cap). -/
theorem C8_registry (allMetas : List SampleMeta) (did : String) (hdid : did ≠ "") :
    (allMetas.take 1000).length = min 1000 allMetas.length ∧
    ((load_index_registry allMetas).map Prod.fst).Nodup ∧
    (match (allMetas.take 1000).find? (fun m => decide (m.document_id = some did)) with
     | none => lookupDoc did (load_index_registry allMetas) = none
     | some m =>
        lookupDoc did (load_index_registry allMetas) =
          some { name := m.document_name.getD "Unknown"
                 dtype := m.document_type.getD "Unknown"
                 path := m.source_file.getD ""
                 chunks := (allMetas.take 1000).countP
                   (fun m2 => decide (m2.document_id = some did)) }) ∧
    (allMetas.take 1000).countP (fun m2 => decide (m2.document_id = some did)) ≤
      allMetas.countP (fun m2 => decide (m2.document_id = some did)) := by
  refine ⟨List.length_take 1000 allMetas, ?_, ?_,
    (List.take_sublist 1000 allMetas).countP_le _⟩
  · unfold load_index_registry load_registry
    rw [keys_foldl_countMeta]
    exact nodup_keys_foldl_register _ [] (by simp)
  · unfold load_index_registry load_registry
    have hpass1 := foldl_registerMeta_lookup_none (allMetas.take 1000) [] did hdid rfl
    cases hf : (allMetas.take 1000).find? (fun m => decide (m.document_id = some did)) with
    | none =>
      rw [hf] at hpass1
      rw [foldl_countMeta_lookup, hpass1]
      rfl
    | some m =>
      rw [hf] at hpass1
      rw [foldl_countMeta_lookup, hpass1]
      simp [initInfo]

/-- Sampled metadata rows used by the C8 witness. -/
def sm1 : SampleMeta :=
  { document_id := some "d1", document_name := some "Directive 001",
    document_type := some "Compliance", source_file := some "directive_001.pdf" }

def sm2 : SampleMeta :=
  { document_id := some "d1", document_name := none, document_type := none,
    source_file := none }

def sm3 : SampleMeta :=
  { document_id := none, document_name := some "X", document_type := none,
    source_file := none }

/-- C8 witness: three sampled rows, two carrying id "d1"; the registry
keeps one record for "d1" with the first row's fields and chunk count 2. -/
theorem C8_registry_witness :
    ("d1" : String) ≠ "" ∧
    ((load_index_registry [sm1, sm2, sm3]).map Prod.fst).Nodup ∧
    lookupDoc "d1" (load_index_registry [sm1, sm2, sm3]) =
      some { name := "Directive 001", dtype := "Compliance",
             path := "directive_001.pdf", chunks := 2 } :=
  ⟨by decide, (C8_registry [sm1, sm2, sm3] "d1" (by decide)).2.1, by
    have h := (C8_registry [sm1, sm2, sm3] "d1" (by decide)).2.2.1
    exact h⟩
